import Mathlib

/-!
# Verification of the fezz plugin execution subsystem

Shallow embedding, in Lean 4, of the parts of the `fezz` repository that the
specification's claims are about:

* the legacy JSON-over-CString plugin ABI: the `fezz_fetch` adapter generated
  by the `fezz_function` attribute macro (`fezz-macros/src/lib.rs`) and the
  symbol names resolved by the hosts (`hhrf/src/main.rs`,
  `fezz-runner/src/main.rs`);
* the CBOR wire codec of `fezz-sdk/src/lib.rs`
  (`encode_request` / `decode_request` / `encode_response` / `decode_response`);
* the dynamic-library host `hhrf`: its idle-TTL library cache
  (`cleanup_expired_libraries`) and the demo request that `handle_rpc` builds
  from the function manifest;
* the static-link gateway (`src/runtime/server.rs`: `handle_request`,
  `convert_request`) with its configuration (`src/runtime/config.rs`);
* the function registry and its lifecycle state machine
  (`src/function/registry.rs`: `load`, `execute`).

Rust `HashMap`s are modelled as association lists, `Instant`s as natural
numbers of nanoseconds, byte buffers as `List Nat`, and the asynchronous
callbacks (`on_load`, `fetch`, the plugin call) as explicit outcome
parameters, so that every host operation becomes a pure state-passing
function.  Machine integers (`u16`, `u64`, `usize`) are natural numbers with
explicit bounds where the code depends on them.
-/

/-! ## ABI symbol contract (fezz-macros, hhrf, fezz-runner)

`fezz-macros/src/lib.rs` emits, for each `#[fezz_function]` item, exactly one
`#[no_mangle] pub unsafe extern "C" fn`, named `fezz_fetch`, of Rust type
`unsafe extern "C" fn(*const c_char) -> *mut c_char`.  Both hosts resolve the
plugin entry point with `library.get(b"fezz_fetch")`
(`hhrf/src/main.rs`, `fezz-runner/src/main.rs`), and both declare the same
`type FezzFetchFn = unsafe extern "C" fn(*const c_char) -> *mut c_char`. -/

/-- The list of exported-symbol names the `fezz_function` macro expansion
emits for a compiled plugin (`fezz-macros/src/lib.rs`: the single
`#[no_mangle]` item `fezz_fetch`). -/
def fezzMacroExportedSymbols : List String := ["fezz_fetch"]

/-- The symbol names the `hhrf` host resolves on a plugin library per
invocation (`hhrf/src/main.rs`: `library.get(b"fezz_fetch")`). -/
def hhrfResolvedSymbols : List String := ["fezz_fetch"]

/-- The symbol names the `fezz-runner` subprocess helper resolves
(`fezz-runner/src/main.rs`: `library.get(b"fezz_fetch")`). -/
def runnerResolvedSymbols : List String := ["fezz_fetch"]

/-- C-level value categories appearing in the two candidate ABI signatures. -/
inductive CType where
  | constCharPtr
  | mutCharPtr
  | constU8Ptr
  | mutU8Ptr
  | usize
deriving DecidableEq, Repr

/-- A C ABI signature: argument slot types and returned slot types. -/
structure CSig where
  args : List CType
  ret : List CType
deriving DecidableEq, Repr

/-- The signature of the plugin entry point actually used by both hosts:
`type FezzFetchFn = unsafe extern "C" fn(*const c_char) -> *mut c_char`. -/
def fezzFetchSig : CSig := { args := [CType.constCharPtr], ret := [CType.mutCharPtr] }

/-- The signature the specification assigns to `fezz_handle_v2`:
`(u8-ptr, usize) -> (u8-mut-ptr, usize)`. -/
def specHandleV2Sig : CSig :=
  { args := [CType.constU8Ptr, CType.usize], ret := [CType.mutU8Ptr, CType.usize] }

/-! ## The legacy JSON HTTP value objects

`hhrf`, `fezz-runner` and the macro expansion all use
`fezz_sdk::{FezzHttpRequest, FezzHttpResponse}`.  The module defining these
two structs is absent from the checked-in sources (the `fezz-sdk` crate in
the tree holds only the CBOR wire types), but their field lists are fully
determined by their construction sites: `hhrf/src/main.rs` builds
`FezzHttpRequest { method, path, headers, body }` and the macro builds
`FezzHttpResponse { status, headers, body }` with `headers` a vector of
string pairs and `body : Option<String>`. -/

/-- `FezzHttpRequest` (legacy JSON ABI), reconstructed from its construction
site in `hhrf/src/main.rs`. -/
structure FezzHttpRequest where
  method : String
  path : String
  headers : List (String × String)
  body : Option String
deriving DecidableEq, Repr

/-- `FezzHttpResponse` (legacy JSON ABI), reconstructed from its construction
sites in `fezz-macros/src/lib.rs`. -/
structure FezzHttpResponse where
  status : Nat
  headers : List (String × String)
  body : Option String
deriving DecidableEq, Repr

/-! ## The generated `fezz_fetch` adapter (fezz-macros/src/lib.rs)

The macro wraps the user handler in `std::panic::catch_unwind`.  The payload
of a caught panic is downcast first as `&str`, then as `String`, otherwise
the message `"Unknown panic"` is used. -/

/-- Payload of a caught unwind, as the adapter downcasts it:
a `&str` payload, a `String` payload, or anything else. -/
inductive PanicPayload where
  | strRef (s : String)
  | strOwned (s : String)
  | other
deriving DecidableEq, Repr

/-- The panic message the adapter extracts from a caught payload
(`downcast_ref::<&str>`, then `downcast_ref::<String>`, else
`"Unknown panic"`). -/
def panicMessage : PanicPayload → String
  | PanicPayload.strRef s => s
  | PanicPayload.strOwned s => s
  | PanicPayload.other => "Unknown panic"

/-- The generated `fezz_fetch` adapter body (`fezz-macros/src/lib.rs`).

Inputs are the two effects the adapter performs inside its unwind barrier:
`parse` is the result of `serde_json::from_str::<FezzHttpRequest>` on the
incoming C string, and `handler` is the user function, whose unwinding is
modelled as `Except.error` carrying the panic payload.  A parse failure
yields the 400 response without invoking the handler; a caught unwind yields
the 500 `Function panicked` response.  The adapter is a total function:
every outcome, including a panic, is turned into a `FezzHttpResponse`, so no
unwind crosses the ABI boundary. -/
def fezz_fetch (parse : Except String FezzHttpRequest)
    (handler : FezzHttpRequest → Except PanicPayload FezzHttpResponse) :
    FezzHttpResponse :=
  let result : Except PanicPayload FezzHttpResponse :=
    match parse with
    | Except.error e =>
        Except.ok
          { status := 400
            headers := [("content-type", "application/json")]
            body := some ("\x7b\"error\":\"Invalid request: " ++ e ++ "\"\x7d") }
    | Except.ok req => handler req
  match result with
  | Except.ok r => r
  | Except.error p =>
      { status := 500
        headers := [("content-type", "application/json")]
        body := some ("\x7b\"error\":\"Function panicked: " ++ panicMessage p ++ "\"\x7d") }

/-! ## hhrf library cache (hhrf/src/main.rs) -/

/-- `CACHE_IDLE_TIMEOUT = Duration::from_secs(300)`, in nanoseconds. -/
def CACHE_IDLE_TIMEOUT : Nat := 300 * 1000000000

/-- `CACHE_CLEANUP_INTERVAL = Duration::from_secs(60)`, in nanoseconds. -/
def CACHE_CLEANUP_INTERVAL : Nat := 60 * 1000000000

/-- A cached library entry: the shared library handle (abstracted to an
identifier) and the `last_used` instant in nanoseconds. -/
structure CachedLibrary where
  library : Nat
  last_used : Nat
deriving DecidableEq, Repr

/-- The global library cache, `HashMap<String, CachedLibrary>` modelled as an
association list. -/
abbrev LibraryCache : Type := List (String × CachedLibrary)

/-- `cleanup_expired_libraries` (`hhrf/src/main.rs`): retain exactly the
entries whose age `now - last_used` is not greater than
`CACHE_IDLE_TIMEOUT`.  `Instant::duration_since` saturates at zero, as does
`Nat` subtraction. -/
def cleanup_expired_libraries (now : Nat) (cache : LibraryCache) : LibraryCache :=
  cache.filter (fun e => !(decide (CACHE_IDLE_TIMEOUT < now - e.2.last_used)))

/-! ## hhrf manifest and demo request (hhrf/src/main.rs) -/

/-- A manifest route entry (`FezzRoute`). -/
structure FezzRoute where
  path : String
  method : String
deriving DecidableEq, Repr

/-- The on-disk function manifest (`FezzManifest`). -/
structure FezzManifest where
  id : String
  version : String
  entry : String
  routes : List FezzRoute
deriving DecidableEq, Repr

/-- A JSON value, for modelling `serde_json` deserialization of manifests. -/
inductive JsonVal where
  | null
  | bool (b : Bool)
  | num (n : Int)
  | str (s : String)
  | arr (elems : List JsonVal)
  | obj (fields : List (String × JsonVal))

/-- Field access on a JSON object as `serde` derive performs it: the field
must be present exactly once (a duplicate key is a `duplicate field` error,
a missing key a `missing field` error). -/
def jsonField (fields : List (String × JsonVal)) (key : String) : Option JsonVal :=
  match fields.filter (fun p => p.1 = key) with
  | [p] => some p.2
  | _ => none

/-- Extract a JSON string. -/
def jsonAsStr : JsonVal → Option String
  | JsonVal.str s => some s
  | _ => none

/-- Extract a JSON array. -/
def jsonAsArr : JsonVal → Option (List JsonVal)
  | JsonVal.arr l => some l
  | _ => none

/-- `serde_json` deserialization of one `FezzRoute` (derive semantics:
an object providing string fields `path` and `method`; unknown keys are
ignored). -/
def routeFromJson (j : JsonVal) : Option FezzRoute :=
  match j with
  | JsonVal.obj fs =>
      match jsonField fs "path", jsonField fs "method" with
      | some pj, some mj =>
          match jsonAsStr pj, jsonAsStr mj with
          | some p, some m => some { path := p, method := m }
          | _, _ => none
      | _, _ => none
  | _ => none

/-- `serde_json` deserialization of a `FezzManifest` (derive semantics: an
object with string fields `id`, `version`, `entry` and an array field
`routes`; an empty `routes` array is accepted). -/
def manifestFromJson (j : JsonVal) : Option FezzManifest :=
  match j with
  | JsonVal.obj fs =>
      match jsonField fs "id", jsonField fs "version", jsonField fs "entry",
            jsonField fs "routes" with
      | some ij, some vj, some ej, some rj =>
          match jsonAsStr ij, jsonAsStr vj, jsonAsStr ej, jsonAsArr rj with
          | some i, some v, some e, some rl =>
              match rl.mapM routeFromJson with
              | some routes => some { id := i, version := v, entry := e, routes := routes }
              | none => none
          | _, _, _, _ => none
      | _, _, _, _ => none
  | _ => none

/-- What the HTTP client sent to `hhrf`, beyond the routed `:id` path
parameter: method, full path, headers, query string and body.  The axum
route `/rpc/:id` hands `handle_rpc` only the extracted `id`; none of these
fields ever reach it. -/
structure HttpIncoming where
  method : String
  path : String
  headers : List (String × String)
  query : String
  body : List Nat
deriving DecidableEq, Repr

/-- Outcome of the request-building stage of `handle_rpc`
(`hhrf/src/main.rs`, steps 1 and 3): either the manifest fails to parse and
`error_response(400, ..)` is returned, or `manifest.routes[0]` is indexed —
which panics when `routes` is empty — or the demo `FezzHttpRequest` is
built from `routes[0]` with empty headers and no body. -/
inductive RpcDemoOutcome where
  | invalidManifest
  | panicked
  | built (req : FezzHttpRequest)
deriving DecidableEq, Repr

/-- The request-building stage of `handle_rpc` for a given routed `id`,
incoming HTTP request, and manifest file contents.  Faithful to the source:
the demo request is built from `manifest.routes[0]` alone
(`method = routes[0].method`, `path = routes[0].path`, `headers = vec![]`,
`body = None`); the incoming request `inc` is not consulted — `handle_rpc`
only ever receives the extracted `id`. -/
def rpcDemoStage (_id : String) (_inc : HttpIncoming) (manifestJson : JsonVal) :
    RpcDemoOutcome :=
  match manifestFromJson manifestJson with
  | none => RpcDemoOutcome.invalidManifest
  | some m =>
      match m.routes with
      | [] => RpcDemoOutcome.panicked
      | r :: _ =>
          RpcDemoOutcome.built
            { method := r.method, path := r.path, headers := [], body := none }

/-! ## Static-link gateway types (src/http, src/runtime/config.rs) -/

/-- `Method` (`src/http/request.rs`). -/
inductive HttpMethod where
  | get
  | post
  | put
  | delete
  | patch
  | head
  | options
deriving DecidableEq, Repr

/-- `FezzRequest` (`src/http/request.rs`): body is raw bytes when present. -/
structure FezzRequest where
  method : HttpMethod
  url : String
  headers : List (String × String)
  body : Option (List Nat)
deriving DecidableEq, Repr

/-- `FezzResponse` (`src/http/response.rs`); the `HashMap` of headers is
modelled as an association list, the `Bytes` body as a byte list. -/
structure FezzResponse where
  status : Nat
  headers : List (String × String)
  body : Option (List Nat)
deriving DecidableEq, Repr

/-- UTF-8 bytes of a string (for bodies built from Rust `String`s). -/
def strBytes (s : String) : List Nat := s.toUTF8.toList.map (fun b => b.toNat)

/-- `FezzResponse::text` (`src/http/response.rs`). -/
def FezzResponse.text (content : String) : FezzResponse :=
  { status := 200, headers := [("Content-Type", "text/plain")], body := some (strBytes content) }

/-- `FezzResponse::error` (`src/http/response.rs`). -/
def FezzResponse.error (status : Nat) (message : String) : FezzResponse :=
  { status := status, headers := [("Content-Type", "text/plain")], body := some (strBytes message) }

/-- `FezzError` (`src/function/handler.rs`). -/
structure FezzError where
  message : String
  code : Nat
deriving DecidableEq, Repr

/-- `FezzError::new`: code 500. -/
def FezzError.new (message : String) : FezzError := { message := message, code := 500 }

/-- `FezzError::with_code`. -/
def FezzError.with_code (code : Nat) (message : String) : FezzError :=
  { message := message, code := code }

/-- `FezzError::not_found`: code 404. -/
def FezzError.not_found (message : String) : FezzError := FezzError.with_code 404 message

/-- `From<FezzError> for FezzResponse` (`src/function/handler.rs`). -/
def FezzError.toResponse (e : FezzError) : FezzResponse :=
  FezzResponse.error e.code e.message

/-- `HhrfConfig` (`src/runtime/config.rs`). -/
structure HhrfConfig where
  host : String
  port : Nat
  env : List (String × String)
  enable_metrics : Bool
  enable_health : Bool
  max_body_size : Nat
  request_timeout : Nat
deriving DecidableEq, Repr

/-- `HhrfConfig::default` (`src/runtime/config.rs`): 10 MiB body cap,
30-second `request_timeout` field. -/
def HhrfConfig.default : HhrfConfig :=
  { host := "0.0.0.0"
    port := 8080
    env := []
    enable_metrics := true
    enable_health := true
    max_body_size := 10 * 1024 * 1024
    request_timeout := 30 }

/-! ## Function registry (src/function/registry.rs) -/

/-- `FunctionState`. -/
inductive FunctionState where
  | Unloaded
  | Loading
  | Ready
  | Unloading
deriving DecidableEq, Repr

/-- A registry entry.  The boxed handler and its context are abstracted away;
the callbacks' results are passed to the operations as explicit outcome
parameters. -/
structure FunctionEntry where
  state : FunctionState
  active_invocations : Nat
deriving DecidableEq, Repr

/-- The registry's `HashMap<String, FunctionEntry>`, as an association
list. -/
abbrev Registry : Type := List (String × FunctionEntry)

/-- First-match lookup (the `HashMap::get`). -/
def lookupEntry (reg : Registry) (name : String) : Option FunctionEntry :=
  (reg.find? (fun p => p.1 = name)).map (fun p => p.2)

/-- In-place mutation of the named entry (the `HashMap::get_mut` pattern);
identity when the name is absent. -/
def updateEntry (reg : Registry) (name : String) (f : FunctionEntry → FunctionEntry) :
    Registry :=
  reg.map (fun p => if p.1 = name then (p.1, f p.2) else p)

/-- `FunctionRegistry::load` (`src/function/registry.rs`).

`onLoadRes` is the outcome of the handler's `on_load` callback.  Returns the
new registry, the result, and whether `on_load` was invoked.  Per the
source: a missing entry is a 404 error; a `Ready` entry returns `Ok`
immediately; a `Loading` entry is an error; ANY other state — `Unloaded` or
`Unloading` — proceeds: the state is set to `Loading`, `on_load` runs, and
the state becomes `Ready` on success or `Unloaded` on failure. -/
def registryLoad (reg : Registry) (name : String)
    (onLoadRes : Except FezzError Unit) :
    Registry × Except FezzError Unit × Bool :=
  match lookupEntry reg name with
  | none =>
      (reg, Except.error (FezzError.not_found ("Function '" ++ name ++ "' not found")), false)
  | some e =>
      if e.state = FunctionState.Ready then
        (reg, Except.ok (), false)
      else if e.state = FunctionState.Loading then
        (reg, Except.error (FezzError.new ("Function '" ++ name ++ "' is already being loaded")),
          false)
      else
        let reg1 := updateEntry reg name (fun e => { e with state := FunctionState.Loading })
        match onLoadRes with
        | Except.error err =>
            (updateEntry reg1 name (fun e => { e with state := FunctionState.Unloaded }),
              Except.error err, true)
        | Except.ok _ =>
            (updateEntry reg1 name (fun e => { e with state := FunctionState.Ready }),
              Except.ok (), true)

/-- `FunctionRegistry::execute` (`src/function/registry.rs`).

Loads first (propagating a load error untouched), then increments
`active_invocations`, runs `fetch` (outcome `fetchRes`), and decrements the
counter with `saturating_sub` (which `Nat` subtraction is) whether `fetch`
succeeded or failed. -/
def registryExecute (reg : Registry) (name : String)
    (onLoadRes : Except FezzError Unit) (fetchRes : Except FezzError FezzResponse) :
    Registry × Except FezzError FezzResponse :=
  match registryLoad reg name onLoadRes with
  | (reg1, Except.error e, _) => (reg1, Except.error e)
  | (reg1, Except.ok _, _) =>
      match lookupEntry reg1 name with
      | none =>
          (reg1, Except.error (FezzError.not_found ("Function '" ++ name ++ "' not found")))
      | some _ =>
          let reg2 := updateEntry reg1 name
            (fun e => { e with active_invocations := e.active_invocations + 1 })
          let reg3 := updateEntry reg2 name
            (fun e => { e with active_invocations := e.active_invocations - 1 })
          (reg3, fetchRes)

/-- The `active_invocations` counter of each entry, read off a registry. -/
def invocationCounts (reg : Registry) (name : String) : Option Nat :=
  (lookupEntry reg name).map (fun e => e.active_invocations)

/-- One completed `execute` call, as a fold step over a call sequence. -/
def executeStep (reg : Registry)
    (call : String × Except FezzError Unit × Except FezzError FezzResponse) : Registry :=
  (registryExecute reg call.1 call.2.1 call.2.2).1

/-! ## Static-link gateway (src/runtime/server.rs) -/

/-- What the HTTP client sent to the static-link gateway. -/
structure GatewayIncoming where
  method : HttpMethod
  path : String
  headers : List (String × String)
  body : List Nat
deriving DecidableEq, Repr

/-- `convert_request` (`src/runtime/server.rs`): pass headers through,
reject a body larger than `max_body_size` with the error string
`"Request body too large"`, map an empty body to `None`. -/
def convert_request (req : GatewayIncoming) (path : String) (cfg : HhrfConfig) :
    Except String FezzRequest :=
  if req.body.length > cfg.max_body_size then
    Except.error "Request body too large"
  else
    Except.ok
      { method := req.method
        url := path
        headers := req.headers
        body := if req.body.isEmpty then none else some req.body }

/-- Split a character list at the first `/`: the function-name segment and
the optional remainder (`splitn(2, '/')` on the slash-trimmed path). -/
def splitFirstSlash : List Char → List Char × Option (List Char)
  | [] => ([], none)
  | c :: rest =>
      if c = '/' then ([], some rest)
      else
        let p := splitFirstSlash rest
        (c :: p.1, p.2)

/-- `Debug` rendering of a `FunctionState` (`format!("\x7b:?\x7d", state)`). -/
def FunctionState.render : FunctionState → String
  | FunctionState.Unloaded => "Unloaded"
  | FunctionState.Loading => "Loading"
  | FunctionState.Ready => "Ready"
  | FunctionState.Unloading => "Unloading"

/-- The `/_metrics` JSON document (`src/runtime/server.rs`): one
`\x7b"name", "state"\x7d` object per registered function. -/
def metricsJson (functions : List (String × FunctionState)) : String :=
  "\x7b\"functions\":[" ++
    String.intercalate ","
      (functions.map (fun p =>
        "\x7b\"name\":\"" ++ p.1 ++ "\",\"state\":\"" ++ p.2.render ++ "\"\x7d")) ++
  "]\x7d"

/-- The `/_metrics` response: `FezzResponse::json` is a 200 with
`application/json` content type. -/
def metricsResponse (functions : List (String × FunctionState)) : FezzResponse :=
  { status := 200
    headers := [("Content-Type", "application/json")]
    body := some (strBytes (metricsJson functions)) }

/-- `handle_request` (`src/runtime/server.rs`).

`functions` is the registry listing used by `/_metrics`; `exec` abstracts
`registry.execute` (name and converted request to outcome).  Returns the
response together with a flag recording whether the function (its `fetch`
path through the registry) was invoked at all.  Faithful control flow:
health and metrics endpoints first; then the path is split as
`/{function_name}/{sub_path}`; `convert_request` failure yields a 400
(`StatusCode::BAD_REQUEST`) error response without invoking the function;
otherwise the execute outcome is returned, errors converted through
`From<FezzError> for FezzResponse`. -/
def handle_request (cfg : HhrfConfig) (functions : List (String × FunctionState))
    (exec : String → FezzRequest → Except FezzError FezzResponse)
    (req : GatewayIncoming) : FezzResponse × Bool :=
  if cfg.enable_health = true ∧ req.path = "/_health" then
    (FezzResponse.text "OK", false)
  else if cfg.enable_metrics = true ∧ req.path = "/_metrics" then
    (metricsResponse functions, false)
  else
    let stripped := req.path.data.dropWhile (fun c => c = '/')
    let parts := splitFirstSlash stripped
    if parts.1.isEmpty then
      (FezzResponse.error 404 "No function specified", false)
    else
      let function_name := parts.1.asString
      let sub_path :=
        match parts.2 with
        | some rest => "/" ++ rest.asString
        | none => "/"
      match convert_request req sub_path cfg with
      | Except.error e => (FezzResponse.error 400 e, false)
      | Except.ok freq =>
          match exec function_name freq with
          | Except.ok resp => (resp, true)
          | Except.error err => (err.toResponse, true)

/-- `handle_request`, exposed with the wall-clock duration of the awaited
plugin invocation as an explicit environment parameter (`elapsed_ms`).

`src/runtime/server.rs` awaits `registry.execute` to completion: no code
path consults a clock, a deadline, `meta.deadline_ms` (the gateway's
`FezzRequest` has no such field) or `cfg.request_timeout`, so the elapsed
time of the call does not occur in the body. -/
def handle_request_timed (cfg : HhrfConfig) (functions : List (String × FunctionState))
    (exec : String → FezzRequest → Except FezzError FezzResponse)
    (req : GatewayIncoming) (_elapsed_ms : Nat) : FezzResponse × Bool :=
  handle_request cfg functions exec req

/-! ## CBOR wire codec (fezz-sdk/src/lib.rs)

`encode_request` / `decode_request` / `encode_response` / `decode_response`
delegate to `serde_cbor::to_vec` / `serde_cbor::from_slice` on the derived
`Serialize`/`Deserialize` implementations.  The model below embeds the CBOR
(RFC 8949) image of those derived codecs for exactly the wire types:

* a struct is a definite-length map whose keys are the field names as text
  strings, in declaration order;
* `String` fields are text strings (modelled here by their UTF-8 byte
  sequences, a bijection with Rust strings), `ByteBuf` fields are byte
  strings, `Vec` fields definite-length arrays, integer fields unsigned
  integers in shortest head form, and `Option` fields either `null` (0xf6)
  or the inner encoding;
* the decoder accepts the encoder's output (serde_cbor's deserializer
  restricted to the canonical field order the serializer emits) and, like
  `from_slice`, rejects trailing bytes.

Bytes are `Nat`s below 256; lengths and integers are bounded by `2 ^ 64`
(`usize`/`u64`) in the well-formedness predicates, and `status` by `2 ^ 16`
(`u16`). -/

/-- `FezzWireHeader` (`fezz-sdk/src/lib.rs`): a raw name/value byte pair. -/
structure FezzWireHeader where
  name : List Nat
  value : List Nat
deriving DecidableEq, Repr

/-- `FezzWireMeta`: optional trace id, deadline (ms) and client ip. -/
structure FezzWireMeta where
  trace_id : Option (List Nat)
  deadline_ms : Option Nat
  client_ip : Option (List Nat)
deriving DecidableEq, Repr

/-- `FezzWireRequest`: the request value object crossing the ABI boundary.
Text fields are represented by their UTF-8 bytes. -/
structure FezzWireRequest where
  method : List Nat
  scheme : Option (List Nat)
  authority : Option (List Nat)
  path_and_query : List Nat
  headers : List FezzWireHeader
  body : List Nat
  meta : Option FezzWireMeta
deriving DecidableEq, Repr

/-- `FezzWireResponse`: status, headers and raw body. -/
structure FezzWireResponse where
  status : Nat
  headers : List FezzWireHeader
  body : List Nat
deriving DecidableEq, Repr

/-- Big-endian bytes of `n` in exactly `k` bytes (most significant first). -/
def toBe : Nat → Nat → List Nat
  | 0, _ => []
  | k + 1, n => n / 256 ^ k :: toBe k (n % 256 ^ k)

/-- Read `k` big-endian bytes, accumulating into `acc`. -/
def readBeAux : Nat → Nat → List Nat → Option (Nat × List Nat)
  | 0, acc, l => some (acc, l)
  | _ + 1, _, [] => none
  | k + 1, acc, b :: l => readBeAux k (acc * 256 + b) l

/-- Read `k` big-endian bytes. -/
def readBe (k : Nat) (l : List Nat) : Option (Nat × List Nat) := readBeAux k 0 l

/-- The CBOR head for major type `m` and argument `n`, in the shortest form
(what serde_cbor's serializer writes). -/
def encodeHead (m n : Nat) : List Nat :=
  if n < 24 then [32 * m + n]
  else if n < 256 then (32 * m + 24) :: toBe 1 n
  else if n < 65536 then (32 * m + 25) :: toBe 2 n
  else if n < 4294967296 then (32 * m + 26) :: toBe 4 n
  else (32 * m + 27) :: toBe 8 n

/-- Decode a CBOR head: major type, argument, rest.  Additional-information
values 28-31 (reserved / indefinite) are rejected, as serde_cbor's
deserializer rejects them for these types. -/
def decodeHead : List Nat → Option (Nat × Nat × List Nat)
  | [] => none
  | b :: rest =>
      if b % 32 < 24 then some (b / 32, b % 32, rest)
      else if b % 32 = 24 then
        match readBe 1 rest with
        | some (n, r) => some (b / 32, n, r)
        | none => none
      else if b % 32 = 25 then
        match readBe 2 rest with
        | some (n, r) => some (b / 32, n, r)
        | none => none
      else if b % 32 = 26 then
        match readBe 4 rest with
        | some (n, r) => some (b / 32, n, r)
        | none => none
      else if b % 32 = 27 then
        match readBe 8 rest with
        | some (n, r) => some (b / 32, n, r)
        | none => none
      else none

/-- Encode a byte string (major type 2). -/
def encBytes (bs : List Nat) : List Nat := encodeHead 2 bs.length ++ bs

/-- Encode a text string (major type 3) given as UTF-8 bytes. -/
def encText (bs : List Nat) : List Nat := encodeHead 3 bs.length ++ bs

/-- Encode an unsigned integer (major type 0). -/
def encUInt (n : Nat) : List Nat := encodeHead 0 n

/-- The CBOR simple value `null`. -/
def cborNull : Nat := 246

/-- Encode an optional text string: `None` is `null`. -/
def encOptText : Option (List Nat) → List Nat
  | none => [cborNull]
  | some bs => encText bs

/-- Encode an optional unsigned integer: `None` is `null`. -/
def encOptUInt : Option Nat → List Nat
  | none => [cborNull]
  | some n => encUInt n

/-- UTF-8 key bytes for field `method`. -/
def keyMethod : List Nat := [109, 101, 116, 104, 111, 100]

/-- UTF-8 key bytes for field `scheme`. -/
def keyScheme : List Nat := [115, 99, 104, 101, 109, 101]

/-- UTF-8 key bytes for field `authority`. -/
def keyAuthority : List Nat := [97, 117, 116, 104, 111, 114, 105, 116, 121]

/-- UTF-8 key bytes for field `path_and_query`. -/
def keyPathAndQuery : List Nat := [112, 97, 116, 104, 95, 97, 110, 100, 95, 113, 117, 101, 114, 121]

/-- UTF-8 key bytes for field `headers`. -/
def keyHeaders : List Nat := [104, 101, 97, 100, 101, 114, 115]

/-- UTF-8 key bytes for field `body`. -/
def keyBody : List Nat := [98, 111, 100, 121]

/-- UTF-8 key bytes for field `meta`. -/
def keyMeta : List Nat := [109, 101, 116, 97]

/-- UTF-8 key bytes for field `name`. -/
def keyName : List Nat := [110, 97, 109, 101]

/-- UTF-8 key bytes for field `value`. -/
def keyValue : List Nat := [118, 97, 108, 117, 101]

/-- UTF-8 key bytes for field `trace_id`. -/
def keyTraceId : List Nat := [116, 114, 97, 99, 101, 95, 105, 100]

/-- UTF-8 key bytes for field `deadline_ms`. -/
def keyDeadlineMs : List Nat := [100, 101, 97, 100, 108, 105, 110, 101, 95, 109, 115]

/-- UTF-8 key bytes for field `client_ip`. -/
def keyClientIp : List Nat := [99, 108, 105, 101, 110, 116, 95, 105, 112]

/-- UTF-8 key bytes for field `status`. -/
def keyStatus : List Nat := [115, 116, 97, 116, 117, 115]

/-- Encode one `FezzWireHeader`: a two-entry map `name`/`value` of byte
strings. -/
def encHeader (h : FezzWireHeader) : List Nat :=
  encodeHead 5 2 ++ encText keyName ++ encBytes h.name ++ encText keyValue ++ encBytes h.value

/-- Concatenated encodings of a header list (the array elements). -/
def encHeaderList : List FezzWireHeader → List Nat
  | [] => []
  | h :: t => encHeader h ++ encHeaderList t

/-- Encode `Vec<FezzWireHeader>`: a definite-length array. -/
def encHeaders (hs : List FezzWireHeader) : List Nat :=
  encodeHead 4 hs.length ++ encHeaderList hs

/-- Encode `FezzWireMeta`: a three-entry map in declaration order. -/
def encMeta (m : FezzWireMeta) : List Nat :=
  encodeHead 5 3 ++
    encText keyTraceId ++ encOptText m.trace_id ++
    encText keyDeadlineMs ++ encOptUInt m.deadline_ms ++
    encText keyClientIp ++ encOptText m.client_ip

/-- Encode `Option<FezzWireMeta>`: `None` is `null`. -/
def encOptMeta : Option FezzWireMeta → List Nat
  | none => [cborNull]
  | some m => encMeta m

/-- `encode_request` (`fezz-sdk/src/lib.rs`): the CBOR image of the derived
`Serialize` for `FezzWireRequest` — a seven-entry map in declaration
order. -/
def encode_request (r : FezzWireRequest) : List Nat :=
  encodeHead 5 7 ++
    encText keyMethod ++ encText r.method ++
    encText keyScheme ++ encOptText r.scheme ++
    encText keyAuthority ++ encOptText r.authority ++
    encText keyPathAndQuery ++ encText r.path_and_query ++
    encText keyHeaders ++ encHeaders r.headers ++
    encText keyBody ++ encBytes r.body ++
    encText keyMeta ++ encOptMeta r.meta

/-- `encode_response` (`fezz-sdk/src/lib.rs`): a three-entry map in
declaration order. -/
def encode_response (s : FezzWireResponse) : List Nat :=
  encodeHead 5 3 ++
    encText keyStatus ++ encUInt s.status ++
    encText keyHeaders ++ encHeaders s.headers ++
    encText keyBody ++ encBytes s.body

/-- Parse a byte string (major type 2). -/
def decBytesP (l : List Nat) : Option (List Nat × List Nat) :=
  match decodeHead l with
  | some (m, n, r) =>
      if m = 2 then (if n ≤ r.length then some (r.take n, r.drop n) else none) else none
  | none => none

/-- Parse a text string (major type 3), returned as its UTF-8 bytes. -/
def decTextP (l : List Nat) : Option (List Nat × List Nat) :=
  match decodeHead l with
  | some (m, n, r) =>
      if m = 3 then (if n ≤ r.length then some (r.take n, r.drop n) else none) else none
  | none => none

/-- Parse an unsigned integer (major type 0). -/
def decUIntP (l : List Nat) : Option (Nat × List Nat) :=
  match decodeHead l with
  | some (m, n, r) => if m = 0 then some (n, r) else none
  | none => none

/-- Parse a `u16` (serde rejects unsigned values above `u16::MAX` when
deserializing the `status` field). -/
def decU16P (l : List Nat) : Option (Nat × List Nat) :=
  match decUIntP l with
  | some (n, r) => if n < 65536 then some (n, r) else none
  | none => none

/-- Parse a struct key: a text string that must equal `key`. -/
def decKeyP (key : List Nat) (l : List Nat) : Option (List Nat) :=
  match decTextP l with
  | some (k, r) => if k = key then some r else none
  | none => none

/-- Parse an optional text string: `null` or a text string. -/
def decOptTextP : List Nat → Option (Option (List Nat) × List Nat)
  | [] => none
  | b :: r =>
      if b = cborNull then some (none, r)
      else
        match decTextP (b :: r) with
        | some (t, r2) => some (some t, r2)
        | none => none

/-- Parse an optional unsigned integer: `null` or an unsigned integer. -/
def decOptUIntP : List Nat → Option (Option Nat × List Nat)
  | [] => none
  | b :: r =>
      if b = cborNull then some (none, r)
      else
        match decUIntP (b :: r) with
        | some (n, r2) => some (some n, r2)
        | none => none

/-- Parse one `FezzWireHeader` (a two-entry `name`/`value` map). -/
def decHeaderP (l : List Nat) : Option (FezzWireHeader × List Nat) :=
  match decodeHead l with
  | some (m, n, r0) =>
      if m = 5 ∧ n = 2 then
        match decKeyP keyName r0 with
        | some r1 =>
            match decBytesP r1 with
            | some (nm, r2) =>
                match decKeyP keyValue r2 with
                | some r3 =>
                    match decBytesP r3 with
                    | some (v, r4) => some ({ name := nm, value := v }, r4)
                    | none => none
                | none => none
            | none => none
        | none => none
      else none
  | none => none

/-- Parse `n` consecutive header encodings. -/
def decHeadersNP : Nat → List Nat → Option (List FezzWireHeader × List Nat)
  | 0, l => some ([], l)
  | k + 1, l =>
      match decHeaderP l with
      | some (h, r) =>
          match decHeadersNP k r with
          | some (hs, r2) => some (h :: hs, r2)
          | none => none
      | none => none

/-- Parse `Vec<FezzWireHeader>` (a definite-length array). -/
def decHeadersP (l : List Nat) : Option (List FezzWireHeader × List Nat) :=
  match decodeHead l with
  | some (m, n, r) => if m = 4 then decHeadersNP n r else none
  | none => none

/-- Parse `FezzWireMeta` (a three-entry map in declaration order). -/
def decMetaP (l : List Nat) : Option (FezzWireMeta × List Nat) :=
  match decodeHead l with
  | some (m, n, r0) =>
      if m = 5 ∧ n = 3 then
        match decKeyP keyTraceId r0 with
        | some r1 =>
            match decOptTextP r1 with
            | some (tid, r2) =>
                match decKeyP keyDeadlineMs r2 with
                | some r3 =>
                    match decOptUIntP r3 with
                    | some (dl, r4) =>
                        match decKeyP keyClientIp r4 with
                        | some r5 =>
                            match decOptTextP r5 with
                            | some (cip, r6) =>
                                some ({ trace_id := tid, deadline_ms := dl, client_ip := cip }, r6)
                            | none => none
                        | none => none
                    | none => none
                | none => none
            | none => none
        | none => none
      else none
  | none => none

/-- Parse `Option<FezzWireMeta>`: `null` or the meta map. -/
def decOptMetaP : List Nat → Option (Option FezzWireMeta × List Nat)
  | [] => none
  | b :: r =>
      if b = cborNull then some (none, r)
      else
        match decMetaP (b :: r) with
        | some (mt, r2) => some (some mt, r2)
        | none => none

/-- Parse a `FezzWireRequest` (a seven-entry map in declaration order). -/
def decRequestP (l : List Nat) : Option (FezzWireRequest × List Nat) :=
  match decodeHead l with
  | some (m, n, r0) =>
      if m = 5 ∧ n = 7 then
        match decKeyP keyMethod r0 with
        | some r1 =>
            match decTextP r1 with
            | some (mth, r2) =>
                match decKeyP keyScheme r2 with
                | some r3 =>
                    match decOptTextP r3 with
                    | some (sch, r4) =>
                        match decKeyP keyAuthority r4 with
                        | some r5 =>
                            match decOptTextP r5 with
                            | some (auth, r6) =>
                                match decKeyP keyPathAndQuery r6 with
                                | some r7 =>
                                    match decTextP r7 with
                                    | some (pq, r8) =>
                                        match decKeyP keyHeaders r8 with
                                        | some r9 =>
                                            match decHeadersP r9 with
                                            | some (hs, r10) =>
                                                match decKeyP keyBody r10 with
                                                | some r11 =>
                                                    match decBytesP r11 with
                                                    | some (bd, r12) =>
                                                        match decKeyP keyMeta r12 with
                                                        | some r13 =>
                                                            match decOptMetaP r13 with
                                                            | some (mt, r14) =>
                                                                some
                                                                  ({ method := mth, scheme := sch,
                                                                     authority := auth,
                                                                     path_and_query := pq,
                                                                     headers := hs, body := bd,
                                                                     meta := mt }, r14)
                                                            | none => none
                                                        | none => none
                                                    | none => none
                                                | none => none
                                            | none => none
                                        | none => none
                                    | none => none
                                | none => none
                            | none => none
                        | none => none
                    | none => none
                | none => none
            | none => none
        | none => none
      else none
  | none => none

/-- Parse a `FezzWireResponse` (a three-entry map in declaration order). -/
def decResponseP (l : List Nat) : Option (FezzWireResponse × List Nat) :=
  match decodeHead l with
  | some (m, n, r0) =>
      if m = 5 ∧ n = 3 then
        match decKeyP keyStatus r0 with
        | some r1 =>
            match decU16P r1 with
            | some (st, r2) =>
                match decKeyP keyHeaders r2 with
                | some r3 =>
                    match decHeadersP r3 with
                    | some (hs, r4) =>
                        match decKeyP keyBody r4 with
                        | some r5 =>
                            match decBytesP r5 with
                            | some (bd, r6) =>
                                some ({ status := st, headers := hs, body := bd }, r6)
                            | none => none
                        | none => none
                    | none => none
                | none => none
            | none => none
        | none => none
      else none
  | none => none

/-- `decode_request` (`fezz-sdk/src/lib.rs`): parse and, like
`serde_cbor::from_slice`, reject trailing bytes. -/
def decode_request (l : List Nat) : Option FezzWireRequest :=
  match decRequestP l with
  | some (r, []) => some r
  | _ => none

/-- `decode_response` (`fezz-sdk/src/lib.rs`): parse and reject trailing
bytes. -/
def decode_response (l : List Nat) : Option FezzWireResponse :=
  match decResponseP l with
  | some (s, []) => some s
  | _ => none

/-- Well-formedness of an optional byte/text field: the length fits in a
`usize`. -/
def wfOptBytes : Option (List Nat) → Bool
  | none => true
  | some bs => decide (bs.length < 2 ^ 64)

/-- Well-formedness of a wire header: both lengths fit in a `usize`. -/
def wfHeader (h : FezzWireHeader) : Bool :=
  decide (h.name.length < 2 ^ 64) && decide (h.value.length < 2 ^ 64)

/-- Well-formedness of an optional unsigned field: the value fits in a
`u64`. -/
def wfOptUInt : Option Nat → Bool
  | none => true
  | some n => decide (n < 2 ^ 64)

/-- Well-formedness of the wire meta: the deadline fits in a `u64`, the text
fields in a `usize`. -/
def wfMeta (m : FezzWireMeta) : Bool :=
  wfOptBytes m.trace_id && wfOptUInt m.deadline_ms && wfOptBytes m.client_ip

/-- Well-formedness of the optional meta. -/
def wfOptMeta : Option FezzWireMeta → Bool
  | none => true
  | some m => wfMeta m

/-- A well-formed `FezzWireRequest`: every length fits in a `usize` and the
meta, when present, is well-formed — exactly the values representable by the
Rust struct. -/
def wfRequest (r : FezzWireRequest) : Bool :=
  decide (r.method.length < 2 ^ 64) &&
    wfOptBytes r.scheme &&
    wfOptBytes r.authority &&
    decide (r.path_and_query.length < 2 ^ 64) &&
    decide (r.headers.length < 2 ^ 64) &&
    r.headers.all wfHeader &&
    decide (r.body.length < 2 ^ 64) &&
    wfOptMeta r.meta

/-- A well-formed `FezzWireResponse`: the status is a `u16` and every length
fits in a `usize`. -/
def wfResponse (s : FezzWireResponse) : Bool :=
  decide (s.status < 65536) &&
    decide (s.headers.length < 2 ^ 64) &&
    s.headers.all wfHeader &&
    decide (s.body.length < 2 ^ 64)

/-! ## Helper lemmas -/

/-- The element at the head of a `dropWhile` result falsifies the predicate. -/
theorem dropWhile_head_false {α : Type} (p : α → Bool) :
    ∀ (l : List α) (c : α) (t : List α), l.dropWhile p = c :: t → p c = false := by
  intro l
  induction l with
  | nil => intro c t h; exact absurd h (by simp)
  | cons a as ih =>
      intro c t h
      by_cases ha : p a
      · rw [List.dropWhile_cons_of_pos ha] at h
        exact ih c t h
      · rw [List.dropWhile_cons_of_neg ha] at h
        cases h
        exact Bool.eq_false_iff.mpr ha

/-- `updateEntry` leaves every key in place and rewrites only the named
entry's value. -/
theorem lookupEntry_updateEntry (reg : Registry) (name k : String)
    (f : FunctionEntry → FunctionEntry) :
    lookupEntry (updateEntry reg name f) k =
      if k = name then (lookupEntry reg k).map f else lookupEntry reg k := by
  induction reg with
  | nil => by_cases h : k = name <;> simp [lookupEntry, updateEntry, h]
  | cons p rest ih =>
      by_cases hp : p.1 = name <;> by_cases hk : p.1 = k
      · have hkn : k = name := by rw [← hk, hp]
        simp [lookupEntry, updateEntry, List.find?, hp, hk, hkn]
      · have hkn : ¬(k = name) := fun h => hk (by rw [hp, ← h])
        have hnk : ¬(name = k) := fun h => hkn h.symm
        simpa [lookupEntry, updateEntry, List.find?, hp, hk, hkn, hnk] using ih
      · have hkn : ¬(k = name) := fun h => hp (by rw [hk, h])
        simp [lookupEntry, updateEntry, List.find?, hp, hk, hkn]
      · simpa [lookupEntry, updateEntry, List.find?, hp, hk] using ih

/-- `registryLoad` never changes any `active_invocations` counter: its only
writes are to the `state` field. -/
theorem registryLoad_counts (reg : Registry) (name : String)
    (res : Except FezzError Unit) (k : String) :
    invocationCounts (registryLoad reg name res).1 k = invocationCounts reg k := by
  unfold registryLoad
  cases hl : lookupEntry reg name with
  | none => rfl
  | some e =>
      by_cases h1 : e.state = FunctionState.Ready
      · simp [h1]
      · by_cases h2 : e.state = FunctionState.Loading
        · simp [h1, h2]
        · cases res with
          | error err =>
              simp only [h1, h2, if_false, invocationCounts, lookupEntry_updateEntry]
              by_cases hkn : k = name
              · simp only [hkn, if_pos rfl, Option.map_map]
                cases lookupEntry reg name <;> rfl
              · simp [hkn]
          | ok u =>
              simp only [h1, h2, if_false, invocationCounts, lookupEntry_updateEntry]
              by_cases hkn : k = name
              · simp only [hkn, if_pos rfl, Option.map_map]
                cases lookupEntry reg name <;> rfl
              · simp [hkn]

/-- A single completed `execute` call leaves every `active_invocations`
counter exactly where it was: the increment before `fetch` and the
saturating decrement after it cancel. -/
theorem registryExecute_counts (reg : Registry) (name : String)
    (olr : Except FezzError Unit) (fr : Except FezzError FezzResponse) (k : String) :
    invocationCounts (registryExecute reg name olr fr).1 k = invocationCounts reg k := by
  have hload0 := registryLoad_counts reg name olr k
  unfold registryExecute
  cases hload : registryLoad reg name olr with
  | mk reg1 p =>
      rw [hload] at hload0
      cases p with
      | mk lr invoked =>
          cases lr with
          | error e => exact hload0
          | ok u =>
              dsimp only
              cases hl1 : lookupEntry reg1 name with
              | none => exact hload0
              | some e0 =>
                  dsimp only
                  rw [← hload0]
                  by_cases hkn : k = name
                  · subst hkn
                    simp only [invocationCounts, lookupEntry_updateEntry, if_pos rfl,
                      Option.map_map, hl1, Option.map_some]
                    rfl
                  · simp [invocationCounts, lookupEntry_updateEntry, hkn]

/-! ## Claim theorems -/

/-- C1 (counterexample). The compiled plugin ABI does not expose the
specification's symbol pair: the macro-generated export list is not
`[fezz_handle_v2, fezz_free_v2]` (neither name is exported at all), the host
resolves `fezz_fetch` for every invocation, and the entry-point signature is
the C-string one, not the byte-slice/usize one. -/
theorem abi_symbols_not_v2 :
    fezzMacroExportedSymbols ≠ ["fezz_handle_v2", "fezz_free_v2"] ∧
    "fezz_handle_v2" ∉ fezzMacroExportedSymbols ∧
    "fezz_free_v2" ∉ fezzMacroExportedSymbols ∧
    hhrfResolvedSymbols = ["fezz_fetch"] ∧
    fezzFetchSig ≠ specHandleV2Sig := by
  exact ⟨by decide, by decide, by decide, rfl, by decide⟩

/-- C1 (amended). Every compiled plugin exports exactly one ABI symbol,
`fezz_fetch`, with the C-string signature
`(*const c_char) -> *mut c_char`, and `fezz_fetch` is the symbol name both
the `hhrf` host and the `fezz-runner` helper resolve for every plugin
invocation. -/
theorem abi_symbol_is_fezz_fetch :
    fezzMacroExportedSymbols = ["fezz_fetch"] ∧
    hhrfResolvedSymbols = ["fezz_fetch"] ∧
    runnerResolvedSymbols = ["fezz_fetch"] ∧
    fezzFetchSig = { args := [CType.constCharPtr], ret := [CType.mutCharPtr] } := by
  exact ⟨rfl, rfl, rfl, rfl⟩

/-- Shared helper: on any function-routed request whose body exceeds
`max_body_size`, `handle_request` returns the 400 `Request body too large`
error response and never invokes the function. -/
theorem handle_request_oversize (cfg : HhrfConfig)
    (functions : List (String × FunctionState))
    (exec : String → FezzRequest → Except FezzError FezzResponse)
    (req : GatewayIncoming)
    (hhealth : ¬(cfg.enable_health = true ∧ req.path = "/_health"))
    (hmetrics : ¬(cfg.enable_metrics = true ∧ req.path = "/_metrics"))
    (hname : req.path.data.dropWhile (fun c => c = '/') ≠ [])
    (hbig : req.body.length > cfg.max_body_size) :
    handle_request cfg functions exec req =
      (FezzResponse.error 400 "Request body too large", false) := by
  unfold handle_request
  rw [if_neg hhealth, if_neg hmetrics]
  cases hstr : req.path.data.dropWhile (fun c => c = '/') with
  | nil => exact absurd hstr hname
  | cons c t =>
      have hc : (decide (c = '/')) = false := dropWhile_head_false _ _ c t hstr
      have hc2 : ¬(c = '/') := by simpa using hc
      simp only [hstr, splitFirstSlash, if_neg hc2]
      have hne : (c :: (splitFirstSlash t).1).isEmpty = false := rfl
      simp only [hne, Bool.false_eq_true, if_false]
      unfold convert_request
      rw [if_pos hbig]

/-- C2 (counterexample). A POST to `/echo` with a body one byte over the
default 10 MiB cap is answered with status 400, not the claimed 413: the
gateway maps every `convert_request` failure to `StatusCode::BAD_REQUEST`. -/
theorem oversize_body_yields_400_not_413 :
    (handle_request HhrfConfig.default []
        (fun _ _ => Except.ok (FezzResponse.text "ok"))
        { method := HttpMethod.post, path := "/echo", headers := [],
          body := List.replicate (10 * 1024 * 1024 + 1) 0 }).1.status = 400 ∧
      (400 : Nat) ≠ 413 := by
  constructor
  · rw [handle_request_oversize]
    · rfl
    · decide
    · decide
    · decide
    · show (List.replicate (10 * 1024 * 1024 + 1) 0).length > HhrfConfig.default.max_body_size
      rw [List.length_replicate]
      decide
  · decide

/-- C2 (amended). For every incoming HTTP request routed to a function whose
fully buffered body exceeds `max_body_size` (default 10 MiB), the gateway
responds with HTTP status 400 (`StatusCode::BAD_REQUEST`, body
`Request body too large`) — not 413 — and the function's handler is never
invoked. -/
theorem oversize_body_rejected_400 (cfg : HhrfConfig)
    (functions : List (String × FunctionState))
    (exec : String → FezzRequest → Except FezzError FezzResponse)
    (req : GatewayIncoming)
    (hhealth : ¬(cfg.enable_health = true ∧ req.path = "/_health"))
    (hmetrics : ¬(cfg.enable_metrics = true ∧ req.path = "/_metrics"))
    (hname : req.path.data.dropWhile (fun c => c = '/') ≠ [])
    (hbig : req.body.length > cfg.max_body_size) :
    (handle_request cfg functions exec req).1.status = 400 ∧
      (handle_request cfg functions exec req).2 = false ∧
      HhrfConfig.default.max_body_size = 10 * 1024 * 1024 := by
  rw [handle_request_oversize cfg functions exec req hhealth hmetrics hname hbig]
  exact ⟨rfl, rfl, rfl⟩

/-- C2 (witness). The amended claim applied to a concrete oversized request:
a 3-byte body against a 2-byte `max_body_size`. -/
theorem oversize_body_rejected_400_witness :
    (handle_request { HhrfConfig.default with max_body_size := 2 } []
        (fun _ _ => Except.error (FezzError.new "unused"))
        { method := HttpMethod.post, path := "/fn/sub", headers := [],
          body := [0, 1, 2] }).1.status = 400 ∧
      (handle_request { HhrfConfig.default with max_body_size := 2 } []
        (fun _ _ => Except.error (FezzError.new "unused"))
        { method := HttpMethod.post, path := "/fn/sub", headers := [],
          body := [0, 1, 2] }).2 = false := by
  have h := oversize_body_rejected_400 { HhrfConfig.default with max_body_size := 2 } []
    (fun _ _ => Except.error (FezzError.new "unused"))
    { method := HttpMethod.post, path := "/fn/sub", headers := [], body := [0, 1, 2] }
    (by decide) (by decide) (by decide) (by decide)
  exact ⟨h.1, h.2.1⟩

/-- C3 (counterexample). No deadline bounds a plugin invocation: with the
default configuration (whose `request_timeout` field is 30 seconds) and no
`meta.deadline_ms` anywhere in the gateway's request type, an invocation
that takes a full day (86400000 ms, far beyond 30 s) still yields the
handler's own 200 response — the gateway never returns 504. -/
theorem long_invocation_not_timed_out :
    HhrfConfig.default.request_timeout = 30 ∧
    86400000 > 30 * 1000 ∧
    (handle_request_timed HhrfConfig.default []
        (fun _ _ => Except.ok { status := 200, headers := [], body := none })
        { method := HttpMethod.get, path := "/slow", headers := [], body := [] }
        86400000).1.status = 200 ∧
    (200 : Nat) ≠ 504 := by
  exact ⟨rfl, by decide, by decide, by decide⟩

/-- C3 (amended). `HhrfConfig` declares a `request_timeout` (default 30
seconds), but no plugin invocation is bounded by any deadline: the gateway's
response is independent of how long the awaited invocation takes (neither
`request_timeout` nor any `meta.deadline_ms` is consulted — the gateway's
request type has no such field), so the host itself never produces a 504. -/
theorem no_deadline_bounds_invocation :
    (∀ (cfg : HhrfConfig) (functions : List (String × FunctionState))
        (exec : String → FezzRequest → Except FezzError FezzResponse)
        (req : GatewayIncoming) (e1 e2 : Nat),
      handle_request_timed cfg functions exec req e1 =
        handle_request_timed cfg functions exec req e2) ∧
    HhrfConfig.default.request_timeout = 30 := by
  exact ⟨fun _ _ _ _ _ _ => rfl, rfl⟩

/-- C4. For every handler invocation whose request parsed successfully and
whose handler unwinds with payload `p`, the generated `fezz_fetch` adapter
catches the unwind and returns the 500 response with content-type
`application/json` and body `{"error":"Function panicked: <message>"}`; the
adapter is total, so no panic crosses the ABI boundary. -/
theorem fezz_fetch_panic_contract
    (parse : Except String FezzHttpRequest)
    (handler : FezzHttpRequest → Except PanicPayload FezzHttpResponse)
    (req : FezzHttpRequest) (p : PanicPayload)
    (hparse : parse = Except.ok req)
    (hpanic : handler req = Except.error p) :
    fezz_fetch parse handler =
      { status := 500
        headers := [("content-type", "application/json")]
        body := some ("\x7b\"error\":\"Function panicked: " ++ panicMessage p ++ "\"\x7d") } := by
  subst hparse
  unfold fezz_fetch
  dsimp only
  rw [hpanic]

/-- C4 (witness). A handler that panics with the `&str` payload `"boom"` on
a concrete request yields exactly the 500 JSON response. -/
theorem fezz_fetch_panic_contract_witness :
    fezz_fetch
        (Except.ok { method := "GET", path := "/boom", headers := [], body := none })
        (fun _ => Except.error (PanicPayload.strRef "boom")) =
      { status := 500
        headers := [("content-type", "application/json")]
        body := some "\x7b\"error\":\"Function panicked: boom\"\x7d" } := by
  rw [fezz_fetch_panic_contract
    (Except.ok { method := "GET", path := "/boom", headers := [], body := none })
    (fun _ => Except.error (PanicPayload.strRef "boom"))
    { method := "GET", path := "/boom", headers := [], body := none }
    (PanicPayload.strRef "boom") rfl rfl]
  decide

/-- C6 (counterexample). `load` is not restricted to `Unloaded` entries: on
an entry in state `Unloading` it falls through both guards, invokes
`on_load`, and transitions the entry to `Ready`. -/
theorem load_from_unloading_invokes_on_load :
    (registryLoad [("f", { state := FunctionState.Unloading, active_invocations := 0 })]
        "f" (Except.ok ())).2.2 = true ∧
    lookupEntry (registryLoad [("f", { state := FunctionState.Unloading, active_invocations := 0 })]
        "f" (Except.ok ())).1 "f" =
      some { state := FunctionState.Ready, active_invocations := 0 } ∧
    FunctionState.Unloading ≠ FunctionState.Unloaded := by
  exact ⟨by decide, by decide, by decide⟩

/-- C6 (amended). `load(name)` on an existing entry invokes `on_load`
exactly when the entry's state is `Unloaded` or `Unloading`; in that case it
passes through `Loading`, returns the `on_load` outcome, and leaves the
entry `Ready` on success and `Unloaded` on failure.  From `Ready` it returns
`Ok` immediately and from `Loading` it returns an error, in both cases
without invoking `on_load` and without changing the registry. -/
theorem registryLoad_spec (reg : Registry) (name : String) (e : FunctionEntry)
    (res : Except FezzError Unit)
    (h : lookupEntry reg name = some e) :
    ((registryLoad reg name res).2.2 = true ↔
      (e.state = FunctionState.Unloaded ∨ e.state = FunctionState.Unloading)) ∧
    (e.state = FunctionState.Ready →
      registryLoad reg name res = (reg, Except.ok (), false)) ∧
    (e.state = FunctionState.Loading →
      registryLoad reg name res =
        (reg, Except.error
          (FezzError.new ("Function '" ++ name ++ "' is already being loaded")), false)) ∧
    ((e.state = FunctionState.Unloaded ∨ e.state = FunctionState.Unloading) →
      (registryLoad reg name res).2.1 = res ∧
      lookupEntry (registryLoad reg name res).1 name =
        some { e with state :=
          match res with
          | Except.ok _ => FunctionState.Ready
          | Except.error _ => FunctionState.Unloaded }) := by
  unfold registryLoad
  rw [h]
  rcases hready : decide (e.state = FunctionState.Ready) with _ | _
  · have hr : ¬(e.state = FunctionState.Ready) := of_decide_eq_false hready
    rcases hloading : decide (e.state = FunctionState.Loading) with _ | _
    · have hlg : ¬(e.state = FunctionState.Loading) := of_decide_eq_false hloading
      have hstates : e.state = FunctionState.Unloaded ∨ e.state = FunctionState.Unloading := by
        cases hst : e.state
        · exact Or.inl rfl
        · exact absurd hst hlg
        · exact absurd hst hr
        · exact Or.inr rfl
      cases res with
      | error err =>
          simp only [if_neg hr, if_neg hlg]
          refine ⟨by simpa using hstates, fun hc => absurd hc hr, fun hc => absurd hc hlg,
            fun _ => ⟨trivial, ?_⟩⟩
          simp [lookupEntry_updateEntry, h]
      | ok u =>
          simp only [if_neg hr, if_neg hlg]
          refine ⟨by simpa using hstates, fun hc => absurd hc hr, fun hc => absurd hc hlg,
            fun _ => ⟨trivial, ?_⟩⟩
          simp [lookupEntry_updateEntry, h]
    · have hlg : e.state = FunctionState.Loading := of_decide_eq_true hloading
      simp only [if_neg hr, if_pos hlg]
      refine ⟨by simp [hlg], fun hc => absurd hc hr, fun _ => trivial, fun hc => ?_⟩
      rcases hc with hc | hc <;> rw [hlg] at hc <;> exact absurd hc (by decide)
  · have hrd : e.state = FunctionState.Ready := of_decide_eq_true hready
    simp only [if_pos hrd]
    refine ⟨by simp [hrd], fun _ => trivial, fun hc => ?_, fun hc => ?_⟩
    · rw [hrd] at hc; exact absurd hc (by decide)
    · rcases hc with hc | hc <;> rw [hrd] at hc <;> exact absurd hc (by decide)

/-- C6 (witness). The amended claim applied to a one-entry registry holding
an `Unloaded` function with a succeeding `on_load`: `on_load` is invoked and
the entry becomes `Ready`. -/
theorem registryLoad_spec_witness :
    (registryLoad [("g", { state := FunctionState.Unloaded, active_invocations := 0 })]
        "g" (Except.ok ())).2.2 = true ∧
    lookupEntry (registryLoad [("g", { state := FunctionState.Unloaded, active_invocations := 0 })]
        "g" (Except.ok ())).1 "g" =
      some { state := FunctionState.Ready, active_invocations := 0 } := by
  have h := registryLoad_spec
    [("g", { state := FunctionState.Unloaded, active_invocations := 0 })] "g"
    { state := FunctionState.Unloaded, active_invocations := 0 } (Except.ok ()) (by decide)
  exact ⟨h.1.mpr (Or.inl rfl), (h.2.2.2 (Or.inl rfl)).2⟩

/-- C7. After `cleanup_expired_libraries` runs at instant `now`, an entry is
in the cache exactly when it was there before with idle time
`now - last_used` at most the idle TTL (5 minutes): every entry whose idle
time exceeds the TTL is evicted, and every entry within the TTL is
retained. -/
theorem cleanup_idle_ttl_spec (now : Nat) (cache : LibraryCache) :
    (∀ e ∈ cleanup_expired_libraries now cache,
      now - e.2.last_used ≤ CACHE_IDLE_TIMEOUT) ∧
    (∀ e ∈ cache, now - e.2.last_used ≤ CACHE_IDLE_TIMEOUT →
      e ∈ cleanup_expired_libraries now cache) := by
  constructor
  · intro e he
    have := (List.mem_filter.mp he).2
    simpa [Nat.not_lt] using this
  · intro e he hle
    refine List.mem_filter.mpr ⟨he, ?_⟩
    simpa [Nat.not_lt] using hle

/-- C7 (witness). At `now = TTL + 1` over a two-entry cache, the entry last
used at instant 1 (idle exactly the TTL) is retained by the theorem's second
part, and the cleaned cache computes to exactly that singleton, showing the
entry idle `TTL + 1` is gone. -/
theorem cleanup_idle_ttl_spec_witness :
    ("warm", ({ library := 2, last_used := 1 } : CachedLibrary)) ∈
      cleanup_expired_libraries (CACHE_IDLE_TIMEOUT + 1)
        [("cold", { library := 1, last_used := 0 }), ("warm", { library := 2, last_used := 1 })] ∧
    cleanup_expired_libraries (CACHE_IDLE_TIMEOUT + 1)
        [("cold", { library := 1, last_used := 0 }), ("warm", { library := 2, last_used := 1 })] =
      [("warm", { library := 2, last_used := 1 })] := by
  refine ⟨(cleanup_idle_ttl_spec (CACHE_IDLE_TIMEOUT + 1)
    [("cold", { library := 1, last_used := 0 }), ("warm", { library := 2, last_used := 1 })]).2
    ("warm", { library := 2, last_used := 1 }) (by decide) (by decide), by decide⟩

/-- C8. In `hhrf`, the demo request `handle_rpc` hands the plugin depends
only on the routed id's manifest: for any two incoming HTTP requests and the
same manifest, the request-building stage produces identical results — so
any serialization of the built request (in particular the JSON bytes passed
over the ABI) is byte-identical — and when the manifest has a first route
the built request is exactly `routes[0].method` / `routes[0].path` with
empty headers and no body. -/
theorem rpc_demo_request_independent_of_client
    (id : String) (inc1 inc2 : HttpIncoming) (j : JsonVal) :
    rpcDemoStage id inc1 j = rpcDemoStage id inc2 j ∧
    (∀ (serialize : RpcDemoOutcome → String),
      serialize (rpcDemoStage id inc1 j) = serialize (rpcDemoStage id inc2 j)) ∧
    (∀ (m : FezzManifest) (r : FezzRoute) (rs : List FezzRoute),
      manifestFromJson j = some m → m.routes = r :: rs →
      rpcDemoStage id inc1 j =
        RpcDemoOutcome.built { method := r.method, path := r.path, headers := [], body := none }) := by
  refine ⟨rfl, fun _ => rfl, fun m r rs hm hr => ?_⟩
  unfold rpcDemoStage
  rw [hm]
  dsimp only
  rw [hr]

/-- C8 (witness). The theorem applied to two maximally different incoming
requests and a concrete one-route manifest: both stages build the same
demo request, dictated by the manifest's first route. -/
theorem rpc_demo_request_independent_of_client_witness :
    rpcDemoStage "todos"
      { method := "POST", path := "/rpc/todos", headers := [("a", "b")], query := "x=1",
        body := [1, 2, 3] }
      (JsonVal.obj [("id", JsonVal.str "todos"), ("version", JsonVal.str "v1"),
        ("entry", JsonVal.str "fezz.so"),
        ("routes", JsonVal.arr [JsonVal.obj [("path", JsonVal.str "/todos"),
          ("method", JsonVal.str "GET")]])]) =
    RpcDemoOutcome.built { method := "GET", path := "/todos", headers := [], body := none } := by
  have h := rpc_demo_request_independent_of_client "todos"
    { method := "POST", path := "/rpc/todos", headers := [("a", "b")], query := "x=1",
      body := [1, 2, 3] }
    { method := "GET", path := "/other", headers := [], query := "", body := [] }
    (JsonVal.obj [("id", JsonVal.str "todos"), ("version", JsonVal.str "v1"),
      ("entry", JsonVal.str "fezz.so"),
      ("routes", JsonVal.arr [JsonVal.obj [("path", JsonVal.str "/todos"),
        ("method", JsonVal.str "GET")]])])
  exact h.2.2
    { id := "todos", version := "v1", entry := "fezz.so"
      routes := [{ path := "/todos", method := "GET" }] }
    { path := "/todos", method := "GET" } [] rfl rfl

/-- C9. `handle_rpc` requires a non-empty `routes` list: any manifest that
deserializes successfully with an empty `routes` array drives the
request-building stage into the `routes[0]` index, which panics instead of
producing an error response. -/
theorem empty_routes_manifest_panics
    (id : String) (inc : HttpIncoming) (j : JsonVal) (m : FezzManifest)
    (hparse : manifestFromJson j = some m)
    (hempty : m.routes = []) :
    rpcDemoStage id inc j = RpcDemoOutcome.panicked := by
  unfold rpcDemoStage
  rw [hparse]
  dsimp only
  rw [hempty]

/-- C9 (witness). A concrete manifest `{"id":"f","version":"v1",
"entry":"fezz.so","routes":[]}` parses successfully (empty `routes` is
accepted by serde), and the stage panics on it. -/
theorem empty_routes_manifest_panics_witness :
    manifestFromJson (JsonVal.obj [("id", JsonVal.str "f"), ("version", JsonVal.str "v1"),
        ("entry", JsonVal.str "fezz.so"), ("routes", JsonVal.arr [])]) =
      some { id := "f", version := "v1", entry := "fezz.so", routes := [] } ∧
    rpcDemoStage "f" { method := "GET", path := "/rpc/f", headers := [], query := "", body := [] }
        (JsonVal.obj [("id", JsonVal.str "f"), ("version", JsonVal.str "v1"),
          ("entry", JsonVal.str "fezz.so"), ("routes", JsonVal.arr [])]) =
      RpcDemoOutcome.panicked := by
  refine ⟨rfl, empty_routes_manifest_panics "f"
    { method := "GET", path := "/rpc/f", headers := [], query := "", body := [] }
    (JsonVal.obj [("id", JsonVal.str "f"), ("version", JsonVal.str "v1"),
      ("entry", JsonVal.str "fezz.so"), ("routes", JsonVal.arr [])])
    { id := "f", version := "v1", entry := "fezz.so", routes := [] } rfl rfl⟩

/-- C10. Every completed `execute` call — whatever the `on_load` and `fetch`
outcomes, found entry or not — restores every `active_invocations` counter
to its prior value: the increment before `fetch` is matched by exactly one
saturating decrement after it, so the (`Nat`-valued, hence non-negative)
counters are preserved across any sequence of completed `execute` calls. -/
theorem execute_preserves_invocation_counts :
    (∀ (reg : Registry) (name : String) (olr : Except FezzError Unit)
        (fr : Except FezzError FezzResponse) (k : String),
      invocationCounts (registryExecute reg name olr fr).1 k = invocationCounts reg k) ∧
    (∀ (calls : List (String × Except FezzError Unit × Except FezzError FezzResponse))
        (reg : Registry) (k : String),
      invocationCounts (calls.foldl executeStep reg) k = invocationCounts reg k) := by
  refine ⟨registryExecute_counts, fun calls => ?_⟩
  induction calls with
  | nil => intro reg k; rfl
  | cons c rest ih =>
      intro reg k
      rw [List.foldl_cons, ih]
      exact registryExecute_counts reg c.1 c.2.1 c.2.2 k

/-! ## Round-trip lemmas for the wire codec -/

/-- Reading back `k` big-endian bytes of `n < 256 ^ k` recovers `n` on top of
the accumulator. -/
theorem readBeAux_toBe (k : Nat) :
    ∀ (n acc : Nat) (r : List Nat), n < 256 ^ k →
      readBeAux k acc (toBe k n ++ r) = some (acc * 256 ^ k + n, r) := by
  induction k with
  | zero =>
      intro n acc r h
      have hn : n = 0 := by simpa using Nat.lt_one_iff.mp (by simpa using h)
      subst hn
      simp [toBe, readBeAux]
  | succ k ih =>
      intro n acc r h
      have hmod : n % 256 ^ k < 256 ^ k := Nat.mod_lt _ (Nat.pos_pow_of_pos k (by omega))
      simp only [toBe, List.cons_append, readBeAux, List.append_eq]
      rw [ih (n % 256 ^ k) (acc * 256 + n / 256 ^ k) r hmod]
      congr 1
      have hdm : n / 256 ^ k * 256 ^ k + n % 256 ^ k = n := by
        rw [Nat.mul_comm]
        exact Nat.div_add_mod n (256 ^ k)
      have : (acc * 256 + n / 256 ^ k) * 256 ^ k + n % 256 ^ k =
          acc * (256 ^ k * 256) + (n / 256 ^ k * 256 ^ k + n % 256 ^ k) := by ring
      rw [this, hdm, Nat.pow_succ]

/-- Decoding the head encoding of `(m, n)` recovers `(m, n)` and the rest,
for any major type `m < 8` and argument `n < 2 ^ 64`. -/
theorem decodeHead_append (m n : Nat) (r : List Nat) (_hm : m < 8) (hn : n < 2 ^ 64) :
    decodeHead (encodeHead m n ++ r) = some (m, n, r) := by
  have h256 : (2 : Nat) ^ 64 = 256 ^ 8 := by norm_num
  unfold encodeHead
  by_cases h1 : n < 24
  · rw [if_pos h1]
    have e1 : (32 * m + n) % 32 = n := by omega
    have e2 : (32 * m + n) / 32 = m := by omega
    simp only [List.cons_append, List.nil_append, decodeHead, e1, e2, if_pos h1]
  · rw [if_neg h1]
    by_cases h2 : n < 256
    · rw [if_pos h2]
      have e1 : (32 * m + 24) % 32 = 24 := by omega
      have e2 : (32 * m + 24) / 32 = m := by omega
      have hr := readBeAux_toBe 1 n 0 r (by simpa using h2)
      simp only [List.cons_append, decodeHead, e1, e2, readBe, hr]
      norm_num
    · rw [if_neg h2]
      by_cases h3 : n < 65536
      · rw [if_pos h3]
        have e1 : (32 * m + 25) % 32 = 25 := by omega
        have e2 : (32 * m + 25) / 32 = m := by omega
        have hr := readBeAux_toBe 2 n 0 r (by simpa using h3)
        simp only [List.cons_append, decodeHead, e1, e2, readBe, hr]
        norm_num
      · rw [if_neg h3]
        by_cases h4 : n < 4294967296
        · rw [if_pos h4]
          have e1 : (32 * m + 26) % 32 = 26 := by omega
          have e2 : (32 * m + 26) / 32 = m := by omega
          have hr := readBeAux_toBe 4 n 0 r (by simpa using h4)
          simp only [List.cons_append, decodeHead, e1, e2, readBe, hr]
          norm_num
        · rw [if_neg h4]
          have e1 : (32 * m + 27) % 32 = 27 := by omega
          have e2 : (32 * m + 27) / 32 = m := by omega
          have hr := readBeAux_toBe 8 n 0 r (by rw [← h256]; exact hn)
          simp only [List.cons_append, decodeHead, e1, e2, readBe, hr]
          norm_num

/-- Byte-string round trip: decoding `encBytes bs` recovers `bs`. -/
theorem decBytesP_enc (bs r : List Nat) (h : bs.length < 2 ^ 64) :
    decBytesP (encBytes bs ++ r) = some (bs, r) := by
  unfold decBytesP encBytes
  rw [List.append_assoc, decodeHead_append 2 bs.length (bs ++ r) (by omega) h]
  have hle : bs.length ≤ (bs ++ r).length := by simp
  simp [hle, List.take_left, List.drop_left]

/-- Text-string round trip: decoding `encText bs` recovers `bs`. -/
theorem decTextP_enc (bs r : List Nat) (h : bs.length < 2 ^ 64) :
    decTextP (encText bs ++ r) = some (bs, r) := by
  unfold decTextP encText
  rw [List.append_assoc, decodeHead_append 3 bs.length (bs ++ r) (by omega) h]
  have hle : bs.length ≤ (bs ++ r).length := by simp
  simp [hle, List.take_left, List.drop_left]

/-- Unsigned-integer round trip. -/
theorem decUIntP_enc (n : Nat) (r : List Nat) (h : n < 2 ^ 64) :
    decUIntP (encUInt n ++ r) = some (n, r) := by
  unfold decUIntP encUInt
  rw [decodeHead_append 0 n r (by omega) h]
  simp

/-- `u16` round trip. -/
theorem decU16P_enc (n : Nat) (r : List Nat) (h : n < 65536) :
    decU16P (encUInt n ++ r) = some (n, r) := by
  unfold decU16P
  rw [decUIntP_enc n r (by omega)]
  simp [h]

/-- Struct-key round trip: decoding the encoded key strips it. -/
theorem decKeyP_enc (key r : List Nat) (h : key.length < 2 ^ 64) :
    decKeyP key (encText key ++ r) = some r := by
  unfold decKeyP
  rw [decTextP_enc key r h]
  simp

/-- The first byte of any head encoding for major type `m` lies in
`[32 m, 32 m + 28)`. -/
theorem encodeHead_cons (m n : Nat) :
    ∃ b t, encodeHead m n = b :: t ∧ 32 * m ≤ b ∧ b < 32 * m + 28 := by
  unfold encodeHead
  by_cases h1 : n < 24
  · exact ⟨32 * m + n, [], by rw [if_pos h1], by omega, by omega⟩
  · rw [if_neg h1]
    by_cases h2 : n < 256
    · exact ⟨32 * m + 24, toBe 1 n, by rw [if_pos h2], by omega, by omega⟩
    · rw [if_neg h2]
      by_cases h3 : n < 65536
      · exact ⟨32 * m + 25, toBe 2 n, by rw [if_pos h3], by omega, by omega⟩
      · rw [if_neg h3]
        by_cases h4 : n < 4294967296
        · exact ⟨32 * m + 26, toBe 4 n, by rw [if_pos h4], by omega, by omega⟩
        · exact ⟨32 * m + 27, toBe 8 n, by rw [if_neg h4], by omega, by omega⟩

/-- Optional-text round trip. -/
theorem decOptTextP_enc (o : Option (List Nat)) (r : List Nat)
    (h : ∀ bs, o = some bs → bs.length < 2 ^ 64) :
    decOptTextP (encOptText o ++ r) = some (o, r) := by
  cases o with
  | none => simp [encOptText, decOptTextP, cborNull]
  | some bs =>
      obtain ⟨b, t, hbt, hlo, hhi⟩ := encodeHead_cons 3 bs.length
      have hcons : encOptText (some bs) ++ r = b :: (t ++ (bs ++ r)) := by
        simp [encOptText, encText, hbt]
      rw [hcons]
      have hb : ¬(b = cborNull) := by unfold cborNull; omega
      unfold decOptTextP
      dsimp only
      rw [if_neg hb]
      have hback : b :: (t ++ (bs ++ r)) = encText bs ++ r := by
        simp [encText, hbt]
      rw [hback, decTextP_enc bs r (h bs rfl)]

/-- Optional-unsigned round trip. -/
theorem decOptUIntP_enc (o : Option Nat) (r : List Nat)
    (h : ∀ n, o = some n → n < 2 ^ 64) :
    decOptUIntP (encOptUInt o ++ r) = some (o, r) := by
  cases o with
  | none => simp [encOptUInt, decOptUIntP, cborNull]
  | some n =>
      obtain ⟨b, t, hbt, hlo, hhi⟩ := encodeHead_cons 0 n
      have hcons : encOptUInt (some n) ++ r = b :: (t ++ r) := by
        simp [encOptUInt, encUInt, hbt]
      rw [hcons]
      have hb : ¬(b = cborNull) := by unfold cborNull; omega
      unfold decOptUIntP
      dsimp only
      rw [if_neg hb]
      have hback : b :: (t ++ r) = encUInt n ++ r := by
        simp [encUInt, hbt]
      rw [hback, decUIntP_enc n r (h n rfl)]

/-- Single-header round trip. -/
theorem decHeaderP_enc (h : FezzWireHeader) (r : List Nat) (hw : wfHeader h = true) :
    decHeaderP (encHeader h ++ r) = some (h, r) := by
  rw [wfHeader, Bool.and_eq_true, decide_eq_true_eq, decide_eq_true_eq] at hw
  obtain ⟨hn, hv⟩ := hw
  unfold decHeaderP encHeader
  simp only [List.append_assoc]
  rw [decodeHead_append 5 2 _ (by omega) (by norm_num)]
  dsimp only
  simp only [eq_self_iff_true, and_self, ite_true]
  rw [decKeyP_enc keyName _ (by decide)]
  dsimp only
  rw [decBytesP_enc h.name _ hn]
  dsimp only
  rw [decKeyP_enc keyValue _ (by decide)]
  dsimp only
  rw [decBytesP_enc h.value _ hv]

/-- A well-formed optional byte field bounds its content. -/
theorem wfOptBytes_spec (o : Option (List Nat)) (h : wfOptBytes o = true) :
    ∀ bs, o = some bs → bs.length < 2 ^ 64 := by
  intro bs hbs
  subst hbs
  simpa [wfOptBytes] using h

/-- A well-formed optional unsigned field bounds its value. -/
theorem wfOptUInt_spec (o : Option Nat) (h : wfOptUInt o = true) :
    ∀ n, o = some n → n < 2 ^ 64 := by
  intro n hn
  subst hn
  simpa [wfOptUInt] using h

/-- Header-sequence round trip: decoding `hs.length` consecutive encoded
headers recovers `hs`. -/
theorem decHeadersNP_enc :
    ∀ (hs : List FezzWireHeader) (r : List Nat), hs.all wfHeader = true →
      decHeadersNP hs.length (encHeaderList hs ++ r) = some (hs, r) := by
  intro hs
  induction hs with
  | nil => intro r _; simp [encHeaderList, decHeadersNP]
  | cons h t ih =>
      intro r hall
      rw [List.all_cons, Bool.and_eq_true] at hall
      obtain ⟨hwh, hallt⟩ := hall
      simp only [encHeaderList, List.append_assoc, List.length_cons, decHeadersNP]
      rw [decHeaderP_enc h _ hwh]
      dsimp only
      rw [ih _ hallt]

/-- Header-array round trip. -/
theorem decHeadersP_enc (hs : List FezzWireHeader) (r : List Nat)
    (hlen : hs.length < 2 ^ 64) (hall : hs.all wfHeader = true) :
    decHeadersP (encHeaders hs ++ r) = some (hs, r) := by
  unfold decHeadersP encHeaders
  simp only [List.append_assoc]
  rw [decodeHead_append 4 hs.length _ (by omega) hlen]
  dsimp only
  simp only [eq_self_iff_true, ite_true]
  exact decHeadersNP_enc hs r hall

/-- Meta round trip. -/
theorem decMetaP_enc (m : FezzWireMeta) (r : List Nat) (hw : wfMeta m = true) :
    decMetaP (encMeta m ++ r) = some (m, r) := by
  rw [wfMeta, Bool.and_eq_true, Bool.and_eq_true] at hw
  obtain ⟨⟨ht, hd⟩, hc⟩ := hw
  unfold decMetaP encMeta
  simp only [List.append_assoc]
  rw [decodeHead_append 5 3 _ (by omega) (by norm_num)]
  dsimp only
  simp only [eq_self_iff_true, and_self, ite_true]
  rw [decKeyP_enc keyTraceId _ (by decide)]
  dsimp only
  rw [decOptTextP_enc m.trace_id _ (wfOptBytes_spec _ ht)]
  dsimp only
  rw [decKeyP_enc keyDeadlineMs _ (by decide)]
  dsimp only
  rw [decOptUIntP_enc m.deadline_ms _ (wfOptUInt_spec _ hd)]
  dsimp only
  rw [decKeyP_enc keyClientIp _ (by decide)]
  dsimp only
  rw [decOptTextP_enc m.client_ip _ (wfOptBytes_spec _ hc)]

/-- Optional-meta round trip. -/
theorem decOptMetaP_enc (o : Option FezzWireMeta) (r : List Nat)
    (h : wfOptMeta o = true) :
    decOptMetaP (encOptMeta o ++ r) = some (o, r) := by
  cases o with
  | none => simp [encOptMeta, decOptMetaP, cborNull]
  | some m =>
      have hm : wfMeta m = true := by simpa [wfOptMeta] using h
      obtain ⟨b, t, hbt, hlo, hhi⟩ := encodeHead_cons 5 3
      have hcons : encOptMeta (some m) ++ r =
          b :: (t ++ (encText keyTraceId ++ encOptText m.trace_id ++
            (encText keyDeadlineMs ++ encOptUInt m.deadline_ms ++
              (encText keyClientIp ++ encOptText m.client_ip ++ r)))) := by
        simp [encOptMeta, encMeta, hbt, List.append_assoc]
      rw [hcons]
      have hb : ¬(b = cborNull) := by unfold cborNull; omega
      unfold decOptMetaP
      dsimp only
      rw [if_neg hb]
      have hback : b :: (t ++ (encText keyTraceId ++ encOptText m.trace_id ++
          (encText keyDeadlineMs ++ encOptUInt m.deadline_ms ++
            (encText keyClientIp ++ encOptText m.client_ip ++ r)))) = encMeta m ++ r := by
        simp [encMeta, hbt, List.append_assoc]
      rw [hback, decMetaP_enc m r hm]

/-- Request round trip with remainder: decoding the encoding of a
well-formed request recovers it and the trailing bytes. -/
theorem decRequestP_enc (rq : FezzWireRequest) (r : List Nat)
    (hw : wfRequest rq = true) :
    decRequestP (encode_request rq ++ r) = some (rq, r) := by
  rw [wfRequest, Bool.and_eq_true, Bool.and_eq_true, Bool.and_eq_true, Bool.and_eq_true,
    Bool.and_eq_true, Bool.and_eq_true, Bool.and_eq_true, decide_eq_true_eq,
    decide_eq_true_eq, decide_eq_true_eq, decide_eq_true_eq] at hw
  obtain ⟨⟨⟨⟨⟨⟨⟨h1, h2⟩, h3⟩, h4⟩, h5⟩, h6⟩, h7⟩, h8⟩ := hw
  unfold decRequestP encode_request
  simp only [List.append_assoc]
  rw [decodeHead_append 5 7 _ (by omega) (by norm_num)]
  dsimp only
  simp only [eq_self_iff_true, and_self, ite_true]
  rw [decKeyP_enc keyMethod _ (by decide)]
  dsimp only
  rw [decTextP_enc rq.method _ h1]
  dsimp only
  rw [decKeyP_enc keyScheme _ (by decide)]
  dsimp only
  rw [decOptTextP_enc rq.scheme _ (wfOptBytes_spec _ h2)]
  dsimp only
  rw [decKeyP_enc keyAuthority _ (by decide)]
  dsimp only
  rw [decOptTextP_enc rq.authority _ (wfOptBytes_spec _ h3)]
  dsimp only
  rw [decKeyP_enc keyPathAndQuery _ (by decide)]
  dsimp only
  rw [decTextP_enc rq.path_and_query _ h4]
  dsimp only
  rw [decKeyP_enc keyHeaders _ (by decide)]
  dsimp only
  rw [decHeadersP_enc rq.headers _ h5 h6]
  dsimp only
  rw [decKeyP_enc keyBody _ (by decide)]
  dsimp only
  rw [decBytesP_enc rq.body _ h7]
  dsimp only
  rw [decKeyP_enc keyMeta _ (by decide)]
  dsimp only
  rw [decOptMetaP_enc rq.meta _ h8]

/-- Response round trip with remainder. -/
theorem decResponseP_enc (s : FezzWireResponse) (r : List Nat)
    (hw : wfResponse s = true) :
    decResponseP (encode_response s ++ r) = some (s, r) := by
  rw [wfResponse, Bool.and_eq_true, Bool.and_eq_true, Bool.and_eq_true,
    decide_eq_true_eq, decide_eq_true_eq, decide_eq_true_eq] at hw
  obtain ⟨⟨⟨h1, h2⟩, h3⟩, h4⟩ := hw
  unfold decResponseP encode_response
  simp only [List.append_assoc]
  rw [decodeHead_append 5 3 _ (by omega) (by norm_num)]
  dsimp only
  simp only [eq_self_iff_true, and_self, ite_true]
  rw [decKeyP_enc keyStatus _ (by decide)]
  dsimp only
  rw [decU16P_enc s.status _ h1]
  dsimp only
  rw [decKeyP_enc keyHeaders _ (by decide)]
  dsimp only
  rw [decHeadersP_enc s.headers _ h2 h3]
  dsimp only
  rw [decKeyP_enc keyBody _ (by decide)]
  dsimp only
  rw [decBytesP_enc s.body _ h4]

/-- C5. The wire codec round-trips: for every well-formed `FezzWireRequest`
`r`, `decode_request (encode_request r) = r`, and for every well-formed
`FezzWireResponse` `s`, `decode_response (encode_response s) = s` (the
decoders, like `serde_cbor::from_slice`, accept no trailing bytes, and the
well-formedness predicates say exactly that the value is representable by
the Rust types: lengths fit a `usize`, `deadline_ms` a `u64`, `status` a
`u16`). -/
theorem wire_codec_roundtrip :
    (∀ rq : FezzWireRequest, wfRequest rq = true →
      decode_request (encode_request rq) = some rq) ∧
    (∀ s : FezzWireResponse, wfResponse s = true →
      decode_response (encode_response s) = some s) := by
  constructor
  · intro rq hw
    unfold decode_request
    have h := decRequestP_enc rq [] hw
    rw [List.append_nil] at h
    rw [h]
  · intro s hw
    unfold decode_response
    have h := decResponseP_enc s [] hw
    rw [List.append_nil] at h
    rw [h]

/-- C5 (witness). The round trip evaluated on a concrete request (covering
every field shape: present and absent options, duplicate-free and empty
header names, bytes with `0`/`255`, a meta with a deadline) and a concrete
response. -/
theorem wire_codec_roundtrip_witness :
    wfRequest
        { method := [71, 69, 84]
          scheme := some [104, 116, 116, 112]
          authority := none
          path_and_query := [47, 97, 63, 113, 61, 49]
          headers := [{ name := [72, 111], value := [104, 105] },
            { name := [], value := [0, 255] }]
          body := [0, 1, 255]
          meta := some
            { trace_id := some [116, 49]
              deadline_ms := some 5000
              client_ip := none } } = true ∧
    decode_request (encode_request
        { method := [71, 69, 84]
          scheme := some [104, 116, 116, 112]
          authority := none
          path_and_query := [47, 97, 63, 113, 61, 49]
          headers := [{ name := [72, 111], value := [104, 105] },
            { name := [], value := [0, 255] }]
          body := [0, 1, 255]
          meta := some
            { trace_id := some [116, 49]
              deadline_ms := some 5000
              client_ip := none } }) =
      some
        { method := [71, 69, 84]
          scheme := some [104, 116, 116, 112]
          authority := none
          path_and_query := [47, 97, 63, 113, 61, 49]
          headers := [{ name := [72, 111], value := [104, 105] },
            { name := [], value := [0, 255] }]
          body := [0, 1, 255]
          meta := some
            { trace_id := some [116, 49]
              deadline_ms := some 5000
              client_ip := none } } ∧
    wfResponse
        { status := 404
          headers := [{ name := [72, 111], value := [104, 105] }]
          body := [] } = true ∧
    decode_response (encode_response
        { status := 404
          headers := [{ name := [72, 111], value := [104, 105] }]
          body := [] }) =
      some
        { status := 404
          headers := [{ name := [72, 111], value := [104, 105] }]
          body := [] } := by
  refine ⟨by decide, wire_codec_roundtrip.1 _ (by decide), by decide,
    wire_codec_roundtrip.2 _ (by decide)⟩
